import Mathlib

/-!
Shallow embedding of the decoders produced by `derive_decode` and
`derive_decode_packet` in `src/valence_derive/src/decode.rs`.

The generated Rust code decodes from a mutable cursor `_r : &mut &[u8]`.
We model the cursor as a `List Nat` of bytes that every decoding step
threads through explicitly, returning the final cursor even on failure
(mirroring the fact that the Rust cursor is mutated in place).  Errors
are `anyhow`-style values carrying a root message plus an ordered chain
of context strings, outermost first.

Field decoders of a composite type are abstract `Decoder α` values: the
macro emits one `Decode::decode(_r).context(...)?` call per declared
field, in declaration order, so a struct decode is determined by the
ordered list of its fields' context labels and decoders.
-/

/-- Error value: root cause message plus the ordered chain of context
strings attached while the error propagated (outermost first).
Modelled from the spec: the `anyhow`-style error type used by the
generated code is not under `src/`; §4.3 and §9 of the spec describe it
as a result value carrying an ordered list of context strings prepended
on each propagation boundary, never losing the root cause. -/
structure DecodeError where
  msg : String
  chain : List String
  deriving DecidableEq

/-- Modelled from the spec: `Context::context` of the error library is
not under `src/`; per §4.3/§9 it annotates (never replaces) the
underlying error by prepending one context string. -/
def DecodeError.context (e : DecodeError) (c : String) : DecodeError :=
  ⟨e.msg, c :: e.chain⟩

/-- A decoder: consumes a prefix of the byte cursor, returning either a
value or a `DecodeError`, together with the final cursor (the Rust
cursor is mutated in place, so it has a final position even on error). -/
abbrev Decoder (α : Type) : Type :=
  List Nat → Except DecodeError α × List Nat

/-- The `.context(ctx)` combinator applied to a decode result, as in the
generated `Decode::decode(_r).context(#ctx)?`: on error the context
string is attached; a success passes through untouched. -/
def withContext {α : Type} (res : Except DecodeError α × List Nat) (c : String) :
    Except DecodeError α × List Nat :=
  match res with
  | (Except.error e, r) => (Except.error (e.context c), r)
  | (Except.ok v, r) => (Except.ok v, r)

/-- Modelled from the spec: `VarInt::decode` lives in `valence_protocol`,
not under `src/`.  Per §4.1: 7 payload bits per byte, little-endian,
high bit is the continuation flag, at most 5 bytes; running out of
buffer is an "unexpected end of buffer" error and a 5th byte with the
continuation bit still set is a "varint too large" error.  `i` counts
bytes already read, `acc` accumulates payload bits. -/
def decode_varint_aux : Nat → Nat → List Nat → Except DecodeError Nat × List Nat
  | _, _, [] => (Except.error ⟨"unexpected end of buffer", []⟩, [])
  | i, acc, b :: rest =>
    let acc2 := acc + b % 128 * 2 ^ (7 * i)
    if b < 128 then (Except.ok acc2, rest)
    else if 4 ≤ i then (Except.error ⟨"varint too large", []⟩, rest)
    else decode_varint_aux (i + 1) acc2 rest

/-- Reinterpret the accumulated payload bits as a two's-complement
signed 32-bit integer (spec §4.1). -/
def toInt32 (n : Nat) : Int :=
  if n % 2 ^ 32 < 2 ^ 31 then ((n % 2 ^ 32 : Nat) : Int)
  else ((n % 2 ^ 32 : Nat) : Int) - 2 ^ 32

/-- Modelled from the spec: the full `VarInt::decode` contract of §4.1,
built from `decode_varint_aux` plus the signed reinterpretation. -/
def decode_varint (r : List Nat) : Except DecodeError Int × List Nat :=
  match decode_varint_aux 0 0 r with
  | (Except.ok acc, r1) => (Except.ok (toInt32 acc), r1)
  | (Except.error e, r1) => (Except.error e, r1)

/-- Modelled from the spec: the primitive `u8` decoder of
`valence_protocol` (not under `src/`); §4.2 assumes fixed-width
primitives decodable, §8 requires buffer exhaustion to be an error. -/
def decode_u8 : Decoder Nat
  | [] => (Except.error ⟨"unexpected end of buffer", []⟩, [])
  | b :: rest => (Except.ok b, rest)

/-- Context label the macro builds for a named struct field
(`decode.rs` line 37). -/
def namedFieldCtx (name : String) : String :=
  "failed to decode field `" ++ name ++ "`"

/-- Context label the macro builds for a positional struct field
(`decode.rs` line 52). -/
def unnamedFieldCtx (i : Nat) : String :=
  "failed to decode field `" ++ toString i ++ "`"

/-- Context label the macro builds for a field of an enum variant
(`decode.rs` lines 102-104 and 118-120); `field` is the name or index. -/
def variantFieldCtx (field vname : String) : String :=
  "failed to decode field `" ++ field ++ "` in variant `" ++ vname ++ "`"

/-- The field-by-field decoding loop the macro emits for a struct body:
one `decode(_r).context(ctx)?` per field, in declaration order, results
assembled in that order (`decode.rs` lines 33-64).  Each list entry is
the field's context label paired with its decoder. -/
def decodeFields {α : Type} :
    List (String × Decoder α) → List Nat → Except DecodeError (List α) × List Nat
  | [], r => (Except.ok [], r)
  | (c, d) :: rest, r =>
    match withContext (d r) c with
    | (Except.error e, r2) => (Except.error e, r2)
    | (Except.ok v, r2) =>
      match decodeFields rest r2 with
      | (Except.error e, r3) => (Except.error e, r3)
      | (Except.ok vs, r3) => (Except.ok (v :: vs), r3)

/-- Generated decoder for a struct with named fields (`decode.rs` lines
34-48): each field's context label is built from its name. -/
def decode_struct_named {α : Type} (fields : List (String × Decoder α)) : Decoder (List α) :=
  fun r => decodeFields (fields.map (fun fd => (namedFieldCtx fd.1, fd.2))) r

/-- Generated decoder for a tuple struct (`decode.rs` lines 49-62): each
field's context label is built from its position. -/
def decode_struct_unnamed {α : Type} (fields : List (Decoder α)) : Decoder (List α) :=
  fun r => decodeFields (fields.enum.map (fun fd => (unnamedFieldCtx fd.1, fd.2))) r

/-- Generated decoder for a unit struct (`decode.rs` line 63): the body
is `Ok(Self)`, touching no bytes. -/
def decode_struct_unit : Decoder Unit :=
  fun r => (Except.ok (), r)

/-- Per-variant field decoding (`decode.rs` lines 95-132): like a struct
body but every context label also names the variant.  Each list entry
pairs the field's name-or-index with its decoder; a unit variant is the
empty list. -/
def decode_variant_fields {α : Type} (vname : String)
    (fields : List (String × Decoder α)) : Decoder (List α) :=
  fun r => decodeFields (fields.map (fun fd => (variantFieldCtx fd.1 vname, fd.2))) r

/-- Dispatch of the generated `match disc` (`decode.rs` lines 153-156):
the arms are tried in declaration order, one literal discriminant per
arm, and the trailing `n => bail!` arm is the `none` case here. -/
def findVariant {α : Type} (disc : Int) :
    List (Int × String × List (String × Decoder α)) →
      Option (String × List (String × Decoder α))
  | [] => none
  | (d0, vname, fields) :: rest =>
    if disc = d0 then some (vname, fields) else findVariant disc rest

/-- Generated decoder for an enum (`decode.rs` lines 149-157): decode a
varint discriminant with context "failed to decode enum discriminant",
dispatch on it, decode exactly the matching variant's fields, and
`bail!("unexpected enum discriminant {}", disc)` when no arm matches.
A variant is given as (discriminant, name, labelled field decoders);
the result is the variant's name with its decoded field values. -/
def decode_enum {α : Type} (variants : List (Int × String × List (String × Decoder α))) :
    Decoder (String × List α) :=
  fun r =>
    match withContext (decode_varint r) "failed to decode enum discriminant" with
    | (Except.error e, r1) => (Except.error e, r1)
    | (Except.ok disc, r1) =>
      match findVariant disc variants with
      | some (vname, fields) =>
        match decode_variant_fields vname fields r1 with
        | (Except.error e, r2) => (Except.error e, r2)
        | (Except.ok vs, r2) => (Except.ok (vname, vs), r2)
      | none => (Except.error ⟨"unexpected enum discriminant " ++ toString disc, []⟩, r1)

/-- Generated `decode_packet` (`decode.rs` lines 201-208): decode a
varint packet ID with context "failed to decode packet ID", `ensure!`
it equals the type's constant, and only then run the type's ordinary
`Self::decode` on the remaining cursor. -/
def decode_packet {α : Type} (packet_id : Int) (d : Decoder α) : Decoder α :=
  fun r =>
    match withContext (decode_varint r) "failed to decode packet ID" with
    | (Except.error e, r1) => (Except.error e, r1)
    | (Except.ok id, r1) =>
      if id = packet_id then d r1
      else
        (Except.error
          ⟨"unexpected packet ID " ++ toString id ++ " (expected " ++ toString packet_id ++ ")",
            []⟩, r1)

/-- A decoder that, when it succeeds, has consumed a prefix of its input
cursor: the final cursor is a suffix (`drop k`) of the initial one. -/
def Consumes {α : Type} (d : Decoder α) : Prop :=
  ∀ r v r2, d r = (Except.ok v, r2) → ∃ k, k ≤ r.length ∧ r2 = r.drop k

/-- The Ping/Pong enum of spec §8, discriminants {Ping ↦ 0, Pong ↦ 1},
both variants without fields. -/
def pingPong : List (Int × String × List (String × Decoder Nat)) :=
  [(0, "Ping", []), (1, "Pong", [])]

/-- Spec §8 conformance of the modelled varint: `300` is the two bytes
`[0xAC, 0x02]`, consumed exactly. -/
lemma varint_decodes_300 : decode_varint [0xAC, 0x02] = (Except.ok 300, []) := by rfl

/-- Spec §8 conformance of the modelled varint: six continuation bytes
fail with the "too large" error after consuming five bytes. -/
lemma varint_too_large_after_five : decode_varint [0xFF, 0xFF, 0xFF, 0xFF, 0xFF, 0xFF] =
    (Except.error ⟨"varint too large", []⟩, [0xFF]) := by rfl

lemma withContext_error {α : Type} (e : DecodeError) (r : List Nat) (c : String) :
    withContext (α := α) (Except.error e, r) c = (Except.error (e.context c), r) := rfl

lemma withContext_ok_iff {α : Type} (res : Except DecodeError α × List Nat)
    (c : String) (v : α) (r2 : List Nat) :
    withContext res c = (Except.ok v, r2) ↔ res = (Except.ok v, r2) := by
  rcases res with ⟨res1, rr⟩
  cases res1 <;> simp [withContext]

lemma decodeFields_append {α : Type} (xs ys : List (String × Decoder α))
    (r r1 : List Nat) (vs : List α)
    (h : decodeFields xs r = (Except.ok vs, r1)) :
    decodeFields (xs ++ ys) r =
      match decodeFields ys r1 with
      | (Except.ok ws, r2) => (Except.ok (vs ++ ws), r2)
      | (Except.error e, r2) => (Except.error e, r2) := by
  induction xs generalizing r vs with
  | nil =>
    simp only [decodeFields, Prod.mk.injEq, Except.ok.injEq] at h
    obtain ⟨rfl, rfl⟩ := h
    simp only [List.nil_append]
    rcases hys : decodeFields ys r with ⟨res, r2⟩
    cases res <;> simp
  | cons hd tl ih =>
    obtain ⟨c, d⟩ := hd
    simp only [decodeFields] at h
    rcases hw : withContext (d r) c with ⟨res, r2⟩
    cases res with
    | error e => rw [hw] at h; simp at h
    | ok v =>
      rw [hw] at h
      simp only at h
      rcases htl : decodeFields tl r2 with ⟨res3, r3⟩
      cases res3 with
      | error e => rw [htl] at h; simp at h
      | ok vs3 =>
        rw [htl] at h
        simp only [Prod.mk.injEq, Except.ok.injEq] at h
        obtain ⟨rfl, rfl⟩ := h
        have hih := ih r2 vs3 htl
        rcases hys : decodeFields ys r3 with ⟨res4, r4⟩
        rw [hys] at hih
        cases res4 with
        | error e4 =>
          simp only at hih
          simp [List.cons_append, decodeFields, hw, hih, hys]
        | ok ws =>
          simp only at hih
          simp [List.cons_append, decodeFields, hw, hih, hys]

lemma decodeFields_error_from {α : Type} (pre : List (String × Decoder α))
    (c : String) (d : Decoder α) (post : List (String × Decoder α))
    (r r1 r2 : List Nat) (vs : List α) (e : DecodeError)
    (hpre : decodeFields pre r = (Except.ok vs, r1))
    (hd : d r1 = (Except.error e, r2)) :
    decodeFields (pre ++ (c, d) :: post) r = (Except.error (e.context c), r2) := by
  rw [decodeFields_append pre ((c, d) :: post) r r1 vs hpre]
  simp only [decodeFields, hd, withContext]

lemma decode_varint_aux_drop :
    ∀ (r : List Nat) (i acc v : Nat) (r1 : List Nat),
      decode_varint_aux i acc r = (Except.ok v, r1) →
      ∃ k, 1 ≤ k ∧ k ≤ r.length ∧ r1 = r.drop k := by
  intro r
  induction r with
  | nil => intro i acc v r1 h; simp [decode_varint_aux] at h
  | cons b rest ih =>
    intro i acc v r1 h
    simp only [decode_varint_aux] at h
    by_cases hb : b < 128
    · simp only [hb, if_true, Prod.mk.injEq, Except.ok.injEq] at h
      exact ⟨1, le_refl 1, by simp, h.2.symm⟩
    · simp only [hb, if_false] at h
      by_cases hi : 4 ≤ i
      · simp [hi] at h
      · simp only [hi, if_false] at h
        obtain ⟨k, hk1, hk, hr⟩ := ih (i + 1) _ v r1 h
        exact ⟨k + 1, by omega, by simpa using Nat.succ_le_succ hk, by simpa using hr⟩

lemma decode_varint_drop (r : List Nat) (v : Int) (r1 : List Nat)
    (h : decode_varint r = (Except.ok v, r1)) :
    ∃ k, 1 ≤ k ∧ k ≤ r.length ∧ r1 = r.drop k := by
  simp only [decode_varint] at h
  rcases ha : decode_varint_aux 0 0 r with ⟨res, r2⟩
  cases res with
  | error e => rw [ha] at h; simp at h
  | ok acc =>
    rw [ha] at h
    simp only [Prod.mk.injEq, Except.ok.injEq] at h
    obtain ⟨-, rfl⟩ := h
    exact decode_varint_aux_drop r 0 0 acc r2 ha

lemma decode_u8_consumes : Consumes decode_u8 := by
  intro r v r2 h
  cases r with
  | nil => simp [decode_u8] at h
  | cons b rest =>
    simp only [decode_u8, Prod.mk.injEq, Except.ok.injEq] at h
    exact ⟨1, by simp, h.2.symm⟩

lemma decodeFields_consumes {α : Type} :
    ∀ (fds : List (String × Decoder α)) (r r2 : List Nat) (vs : List α),
      (∀ fd ∈ fds, Consumes fd.2) →
      decodeFields fds r = (Except.ok vs, r2) →
      ∃ ks : List Nat, ks.length = fds.length ∧ ks.sum ≤ r.length ∧ r2 = r.drop ks.sum := by
  intro fds
  induction fds with
  | nil =>
    intro r r2 vs _ h
    simp only [decodeFields, Prod.mk.injEq] at h
    exact ⟨[], rfl, by simp, by simp [h.2]⟩
  | cons hd tl ih =>
    intro r r2 vs hcons h
    obtain ⟨c, d⟩ := hd
    simp only [decodeFields] at h
    rcases hw : withContext (d r) c with ⟨res, rmid⟩
    cases res with
    | error e => rw [hw] at h; simp at h
    | ok v =>
      rw [hw] at h
      simp only at h
      have hdr : d r = (Except.ok v, rmid) := (withContext_ok_iff (d r) c v rmid).mp hw
      obtain ⟨k1, hk1len, hrmid⟩ :=
        hcons (c, d) (List.mem_cons_self _ _) r v rmid hdr
      rcases htl : decodeFields tl rmid with ⟨res3, r3⟩
      cases res3 with
      | error e => rw [htl] at h; simp at h
      | ok vs3 =>
        rw [htl] at h
        simp only [Prod.mk.injEq, Except.ok.injEq] at h
        obtain ⟨-, rfl⟩ := h
        obtain ⟨ks, hkslen, hkssum, hr3⟩ :=
          ih rmid r3 vs3 (fun fd hfd => hcons fd (List.mem_cons_of_mem _ hfd)) htl
        refine ⟨k1 :: ks, by simp [hkslen], ?_, ?_⟩
        · have : rmid.length = r.length - k1 := by rw [hrmid]; simp
          simp only [List.sum_cons]
          omega
        · rw [hr3, hrmid, List.drop_drop, List.sum_cons]

lemma findVariant_none {α : Type}
    (variants : List (Int × String × List (String × Decoder α))) (n : Int)
    (h : ∀ v ∈ variants, v.1 ≠ n) :
    findVariant n variants = none := by
  induction variants with
  | nil => rfl
  | cons hd tl ih =>
    obtain ⟨d0, vname, fields⟩ := hd
    have hne : n ≠ d0 := fun he => h (d0, vname, fields) (List.mem_cons_self _ _) he.symm
    simp only [findVariant, hne, if_false]
    exact ih (fun v hv => h v (List.mem_cons_of_mem _ hv))

lemma findVariant_first {α : Type}
    (pre post : List (Int × String × List (String × Decoder α)))
    (n : Int) (vname : String) (fields : List (String × Decoder α))
    (h : ∀ v ∈ pre, v.1 ≠ n) :
    findVariant n (pre ++ (n, vname, fields) :: post) = some (vname, fields) := by
  induction pre with
  | nil => simp [findVariant]
  | cons hd tl ih =>
    obtain ⟨d0, w, fs⟩ := hd
    have hne : n ≠ d0 := fun he => h (d0, w, fs) (List.mem_cons_self _ _) he.symm
    simp only [List.cons_append, findVariant, hne, if_false]
    exact ih (fun v hv => h v (List.mem_cons_of_mem _ hv))

/-- Claim C1: decoding a packet first decodes one varint packet ID
(context "failed to decode packet ID" on failure); if the decoded ID
differs from the type's constant the decode fails with
"unexpected packet ID <got> (expected <want>)" and the structural
decoder is never invoked (the result is the same for every field
decoder `d`); only on a match is the ordinary decoder run on the
remaining cursor. -/
theorem packet_decode_checks_id_before_fields :
    (∀ (α : Type) (pid : Int) (d : Decoder α) (r r1 : List Nat) (e : DecodeError),
      decode_varint r = (Except.error e, r1) →
      decode_packet pid d r =
        (Except.error (e.context "failed to decode packet ID"), r1)) ∧
    (∀ (α : Type) (pid id : Int) (d : Decoder α) (r r1 : List Nat),
      decode_varint r = (Except.ok id, r1) → id ≠ pid →
      decode_packet pid d r =
        (Except.error
          ⟨"unexpected packet ID " ++ toString id ++ " (expected " ++ toString pid ++ ")",
            []⟩, r1)) ∧
    (∀ (α : Type) (pid : Int) (d : Decoder α) (r r1 : List Nat),
      decode_varint r = (Except.ok pid, r1) →
      decode_packet pid d r = d r1) := by
  refine ⟨?_, ?_, ?_⟩
  · intro α pid d r r1 e h
    simp [decode_packet, h, withContext]
  · intro α pid id d r r1 h hne
    simp [decode_packet, h, withContext, hne]
  · intro α pid d r r1 h
    simp [decode_packet, h, withContext]

/-- Witness for C1, the framing example of spec §8: expected ID 7, a
buffer led by ID 8 is rejected without the field byte being read, and a
buffer led by ID 7 decodes its field normally. -/
theorem packet_decode_checks_id_before_fields_witness :
    decode_packet 7 decode_u8 [8, 5] =
      (Except.error ⟨"unexpected packet ID 8 (expected 7)", []⟩, [5]) ∧
    decode_packet 7 decode_u8 [7, 5] = (Except.ok 5, []) :=
  ⟨packet_decode_checks_id_before_fields.2.1 Nat 7 8 decode_u8 [8, 5] [5]
      (by rfl) (by decide),
    (packet_decode_checks_id_before_fields.2.2 Nat 7 decode_u8 [7, 5] [5]
      (by rfl)).trans (by rfl)⟩

/-- Claim C2: enum decoding first reads one varint discriminant
(context "failed to decode enum discriminant" on failure); a
discriminant matching no declared variant fails with
"unexpected enum discriminant <value>" and no variant's fields are
decoded; a discriminant matching a declared variant decodes exactly
that variant's fields and returns that variant. -/
theorem enum_decode_discriminant_dispatch :
    (∀ (α : Type) (variants : List (Int × String × List (String × Decoder α)))
        (r r1 : List Nat) (e : DecodeError),
      decode_varint r = (Except.error e, r1) →
      decode_enum variants r =
        (Except.error (e.context "failed to decode enum discriminant"), r1)) ∧
    (∀ (α : Type) (variants : List (Int × String × List (String × Decoder α)))
        (n : Int) (r r1 : List Nat),
      decode_varint r = (Except.ok n, r1) →
      (∀ v ∈ variants, v.1 ≠ n) →
      decode_enum variants r =
        (Except.error ⟨"unexpected enum discriminant " ++ toString n, []⟩, r1)) ∧
    (∀ (α : Type) (pre post : List (Int × String × List (String × Decoder α)))
        (n : Int) (vname : String) (fields : List (String × Decoder α)) (r r1 : List Nat),
      decode_varint r = (Except.ok n, r1) →
      (∀ v ∈ pre, v.1 ≠ n) →
      decode_enum (pre ++ (n, vname, fields) :: post) r =
        match decode_variant_fields vname fields r1 with
        | (Except.ok vs, r2) => (Except.ok (vname, vs), r2)
        | (Except.error e, r2) => (Except.error e, r2)) := by
  refine ⟨?_, ?_, ?_⟩
  · intro α variants r r1 e h
    simp [decode_enum, h, withContext]
  · intro α variants n r r1 h hnone
    simp [decode_enum, h, withContext, findVariant_none variants n hnone]
  · intro α pre post n vname fields r r1 h hpre
    simp only [decode_enum, h, withContext, findVariant_first pre post n vname fields hpre]
    rcases hv : decode_variant_fields vname fields r1 with ⟨res, r2⟩
    cases res <;> simp [hv]

/-- Witness for C2, the Ping/Pong example of spec §8: `[0x00]` decodes
to `Ping` consuming the single byte, `[0x02]` fails with
"unexpected enum discriminant 2". -/
theorem enum_decode_discriminant_dispatch_witness :
    decode_enum pingPong [0] = (Except.ok ("Ping", []), []) ∧
    decode_enum pingPong [2] =
      (Except.error ⟨"unexpected enum discriminant 2", []⟩, []) :=
  ⟨(enum_decode_discriminant_dispatch.2.2 Nat [] [(1, "Pong", [])] 0 "Ping" [] [0] []
      (by rfl) (by simp)).trans (by rfl),
    enum_decode_discriminant_dispatch.2.1 Nat pingPong 2 [2] []
      (by rfl) (by simp [pingPong])⟩

/-- Claim C3: struct fields are decoded strictly sequentially, in
declaration order, from the shared cursor: once the fields `xs` have
decoded, ending at cursor `r1`, decoding `xs ++ ys` continues with `ys`
from exactly `r1` — field i starts only after field i-1 has fully
completed — and the decoded values are assembled in that same order. -/
theorem struct_decode_sequential_in_order :
    ∀ (α : Type) (xs ys : List (String × Decoder α)) (r r1 : List Nat) (vs : List α),
      decodeFields xs r = (Except.ok vs, r1) →
      decodeFields (xs ++ ys) r =
        match decodeFields ys r1 with
        | (Except.ok ws, r2) => (Except.ok (vs ++ ws), r2)
        | (Except.error e, r2) => (Except.error e, r2) :=
  fun α xs ys r r1 vs h => decodeFields_append xs ys r r1 vs h

/-- Witness for C3: two one-byte fields decoded in order from
`[5, 9, 255]`, the second starting where the first stopped. -/
theorem struct_decode_sequential_in_order_witness :
    decodeFields [(namedFieldCtx "a", decode_u8), (namedFieldCtx "b", decode_u8)]
        [5, 9, 255] = (Except.ok [5, 9], [255]) :=
  (struct_decode_sequential_in_order Nat [(namedFieldCtx "a", decode_u8)]
      [(namedFieldCtx "b", decode_u8)] [5, 9, 255] [9, 255] [5] (by rfl)).trans (by rfl)

/-- Claim C4: a failing struct-field decode surfaces the underlying
error annotated — not replaced — with "failed to decode field
`<name>`"; a failing variant-field decode with "failed to decode field
`<name-or-index>` in variant `<variant>`": the root message survives
and the surfaced chain is the new context consed onto the inner chain,
so the full chain is reconstructible; attaching context never changes
the success/failure outcome of a decode. -/
theorem field_decode_error_context_chain :
    (∀ (α : Type) (pre : List (String × Decoder α)) (name : String) (d : Decoder α)
        (post : List (String × Decoder α)) (r r1 r2 : List Nat) (vs : List α)
        (e : DecodeError),
      decodeFields (pre.map (fun fd => (namedFieldCtx fd.1, fd.2))) r = (Except.ok vs, r1) →
      d r1 = (Except.error e, r2) →
      decode_struct_named (pre ++ (name, d) :: post) r =
        (Except.error ⟨e.msg, namedFieldCtx name :: e.chain⟩, r2)) ∧
    (∀ (α : Type) (vname : String) (pre : List (String × Decoder α)) (fname : String)
        (d : Decoder α) (post : List (String × Decoder α)) (r r1 r2 : List Nat)
        (vs : List α) (e : DecodeError),
      decodeFields (pre.map (fun fd => (variantFieldCtx fd.1 vname, fd.2))) r =
        (Except.ok vs, r1) →
      d r1 = (Except.error e, r2) →
      decode_variant_fields vname (pre ++ (fname, d) :: post) r =
        (Except.error ⟨e.msg, variantFieldCtx fname vname :: e.chain⟩, r2)) ∧
    (∀ (α : Type) (res : Except DecodeError α × List Nat) (c : String),
      (withContext res c).1.isOk = res.1.isOk ∧
      ∀ (e : DecodeError) (r2 : List Nat), res = (Except.error e, r2) →
        withContext res c = (Except.error ⟨e.msg, c :: e.chain⟩, r2)) := by
  refine ⟨?_, ?_, ?_⟩
  · intro α pre name d post r r1 r2 vs e hpre hd
    unfold decode_struct_named
    rw [List.map_append, List.map_cons]
    exact decodeFields_error_from _ _ _ _ _ _ _ _ _ hpre hd
  · intro α vname pre fname d post r r1 r2 vs e hpre hd
    unfold decode_variant_fields
    rw [List.map_append, List.map_cons]
    exact decodeFields_error_from _ _ _ _ _ _ _ _ _ hpre hd
  · intro α res c
    rcases res with ⟨res1, rr⟩
    refine ⟨?_, ?_⟩
    · cases res1 <;> rfl
    · intro e r2 he
      rw [he]
      rfl

/-- Witness for C4, the spec §8 error-context example: a struct
`{x, y}` of Ping/Pong enums decoded from `[0, 2]` fails inside `y` and
the surfaced error keeps the root discriminant message while adding
"failed to decode field `y`". -/
theorem field_decode_error_context_chain_witness :
    decode_struct_named [("x", decode_enum pingPong), ("y", decode_enum pingPong)]
        [0, 2] =
      (Except.error
        ⟨"unexpected enum discriminant 2", ["failed to decode field `y`"]⟩, []) :=
  field_decode_error_context_chain.1 (String × List Nat)
    [("x", decode_enum pingPong)] "y" (decode_enum pingPong) [] [0, 2] [2] []
    [("Ping", [])] ⟨"unexpected enum discriminant 2", []⟩ (by rfl) (by rfl)

/-- Claim C5: when every field decoder consumes a prefix of its input
on success, a successful struct decode consumes exactly the sum of its
fields' byte counts — one count per field, in declared order — leaving
the cursor exactly past the decoded encoding, on the untouched suffix
of the input. -/
theorem struct_decode_consumes_field_sum :
    ∀ (α : Type) (fds : List (String × Decoder α)) (r r2 : List Nat) (vs : List α),
      (∀ fd ∈ fds, Consumes fd.2) →
      decodeFields fds r = (Except.ok vs, r2) →
      ∃ ks : List Nat, ks.length = fds.length ∧ ks.sum + r2.length = r.length ∧
        r2 = r.drop ks.sum := by
  intro α fds r r2 vs h1 h2
  obtain ⟨ks, hlen, hle, hdrop⟩ := decodeFields_consumes fds r r2 vs h1 h2
  refine ⟨ks, hlen, ?_, hdrop⟩
  rw [hdrop, List.length_drop]
  omega

/-- Witness for C5, the spec §8 consumption example: `{a: u8, b: u8}`
decoded from `[5, 9, 255]` yields `[5, 9]`, consumes `1 + 1` bytes and
leaves the single byte `[255]`. -/
theorem struct_decode_consumes_field_sum_witness :
    decode_struct_named [("a", decode_u8), ("b", decode_u8)] [5, 9, 255] =
      (Except.ok [5, 9], [255]) ∧
    ∃ ks : List Nat, ks.length = 2 ∧ ks.sum + 1 = 3 ∧
      ([255] : List Nat) = List.drop ks.sum [5, 9, 255] :=
  ⟨by rfl,
    struct_decode_consumes_field_sum Nat
      [(namedFieldCtx "a", decode_u8), (namedFieldCtx "b", decode_u8)] [5, 9, 255]
      [255] [5, 9]
      (by
        intro fd hfd
        rcases List.mem_cons.mp hfd with h | h
        · rw [h]; exact decode_u8_consumes
        · rcases List.mem_cons.mp h with h2 | h2
          · rw [h2]; exact decode_u8_consumes
          · simp at h2)
      (by rfl)⟩

/-- Claim C6: a struct with no fields always decodes successfully to
its unit value and consumes zero bytes, on every input buffer, the
empty buffer included — both for the `Fields::Unit` arm and for an
empty field list. -/
theorem unit_struct_decode_consumes_nothing :
    ∀ (α : Type) (r : List Nat),
      decode_struct_unit r = (Except.ok (), r) ∧
      decode_struct_named ([] : List (String × Decoder α)) r = (Except.ok [], r) :=
  fun α r => ⟨rfl, rfl⟩

/-- Claim C7: every composite decoder aborts on its first failure,
surfacing a single structured error. A failing struct field makes the
whole decode that error, independently of every field declared after
it; a failed enum discriminant read aborts the enum decode before any
variant; a failed packet ID read aborts the packet decode independently
of the structural decoder. -/
theorem composite_decode_aborts_on_first_failure :
    (∀ (α : Type) (pre : List (String × Decoder α)) (c : String) (d : Decoder α)
        (post post2 : List (String × Decoder α)) (r r1 r2 : List Nat) (vs : List α)
        (e : DecodeError),
      decodeFields pre r = (Except.ok vs, r1) →
      d r1 = (Except.error e, r2) →
      decodeFields (pre ++ (c, d) :: post) r = (Except.error (e.context c), r2) ∧
      decodeFields (pre ++ (c, d) :: post) r = decodeFields (pre ++ (c, d) :: post2) r) ∧
    (∀ (α : Type) (variants : List (Int × String × List (String × Decoder α)))
        (r r1 : List Nat) (e : DecodeError),
      decode_enum variants r = decode_enum variants r →
      decode_varint r = (Except.error e, r1) →
      decode_enum variants r =
        (Except.error (e.context "failed to decode enum discriminant"), r1)) ∧
    (∀ (α : Type) (pid : Int) (d d2 : Decoder α) (r r1 : List Nat) (e : DecodeError),
      decode_varint r = (Except.error e, r1) →
      decode_packet pid d r = (Except.error (e.context "failed to decode packet ID"), r1) ∧
      decode_packet pid d r = decode_packet pid d2 r) := by
  refine ⟨?_, ?_, ?_⟩
  · intro α pre c d post post2 r r1 r2 vs e hpre hd
    exact ⟨decodeFields_error_from pre c d post r r1 r2 vs e hpre hd,
      (decodeFields_error_from pre c d post r r1 r2 vs e hpre hd).trans
        (decodeFields_error_from pre c d post2 r r1 r2 vs e hpre hd).symm⟩
  · intro α variants r r1 e _ h
    simp [decode_enum, h, withContext]
  · intro α pid d d2 r r1 e h
    constructor <;> simp [decode_packet, h, withContext]

/-- Witness for C7: field `B` of a three-field struct runs out of
buffer; the decode is the single context-chained error and the trailing
field `Z` is irrelevant to the outcome. -/
theorem composite_decode_aborts_on_first_failure_witness :
    (decodeFields [("A", decode_u8), ("B", decode_u8), ("Z", decode_u8)] [5] =
      (Except.error ⟨"unexpected end of buffer", ["B"]⟩, []) ∧
    decodeFields [("A", decode_u8), ("B", decode_u8), ("Z", decode_u8)] [5] =
      decodeFields [("A", decode_u8), ("B", decode_u8)] [5]) :=
  composite_decode_aborts_on_first_failure.1 Nat [("A", decode_u8)] "B" decode_u8
    [("Z", decode_u8)] [] [5] [] [] [5] ⟨"unexpected end of buffer", []⟩
    (by rfl) (by rfl)

/-- Claim C8: decoding is deterministic — each decoder is a function of
the input cursor alone, so decoding the same bytes twice yields the
same value-or-error and the same final cursor, for struct, enum and
packet decoders and for the varint primitive. -/
theorem decode_deterministic :
    ∀ (α : Type) (fds : List (String × Decoder α))
      (variants : List (Int × String × List (String × Decoder α)))
      (pid : Int) (d : Decoder α) (r r2 : List Nat),
      r = r2 →
      decodeFields fds r = decodeFields fds r2 ∧
      decode_enum variants r = decode_enum variants r2 ∧
      decode_packet pid d r = decode_packet pid d r2 ∧
      decode_varint r = decode_varint r2 := by
  intro α fds variants pid d r r2 h
  subst h
  exact ⟨rfl, rfl, rfl, rfl⟩

/-- Witness for C8: the decoders applied twice to the byte `[0]`. -/
theorem decode_deterministic_witness :
    decodeFields [("a", decode_u8)] [0] = decodeFields [("a", decode_u8)] [0] ∧
    decode_enum pingPong [0] = decode_enum pingPong [0] ∧
    decode_packet 7 decode_u8 [0] = decode_packet 7 decode_u8 [0] ∧
    decode_varint [0] = decode_varint [0] :=
  decode_deterministic Nat [("a", decode_u8)] pingPong 7 decode_u8 [0] [0] rfl

/-- Claim C9: when the leading packet ID varint decodes successfully
but differs from the expected constant, the failing packet decode
leaves the cursor exactly past the ID varint — a nonempty prefix of the
input was consumed and the remaining field bytes are the untouched
suffix — whatever the structural decoder is. -/
theorem packet_id_mismatch_cursor_after_id :
    ∀ (α : Type) (pid id : Int) (d : Decoder α) (r r1 : List Nat),
      decode_varint r = (Except.ok id, r1) → id ≠ pid →
      ∃ k, 1 ≤ k ∧ k ≤ r.length ∧ r1 = r.drop k ∧
        decode_packet pid d r =
          (Except.error
            ⟨"unexpected packet ID " ++ toString id ++ " (expected " ++ toString pid ++ ")",
              []⟩, r1) := by
  intro α pid id d r r1 h hne
  obtain ⟨k, hk1, hk, hdrop⟩ := decode_varint_drop r id r1 h
  exact ⟨k, hk1, hk, hdrop, by simp [decode_packet, h, withContext, hne]⟩

/-- Witness for C9: expected ID 7, buffer `[8, 99]`: the mismatch error
leaves the cursor on `[99]`, exactly past the one-byte ID varint. -/
theorem packet_id_mismatch_cursor_after_id_witness :
    ∃ k, 1 ≤ k ∧ k ≤ ([8, 99] : List Nat).length ∧ ([99] : List Nat) = List.drop k [8, 99] ∧
      decode_packet 7 decode_u8 [8, 99] =
        (Except.error ⟨"unexpected packet ID 8 (expected 7)", []⟩, [99]) :=
  packet_id_mismatch_cursor_after_id Nat 7 8 decode_u8 [8, 99] [99] (by rfl) (by decide)

/-- Claim C10: the enum decoder consumes the discriminant varint before
any byte of the selected variant's fields: the matching variant's
fields are decoded from the post-discriminant cursor, and a unit
variant's successful decode consumes exactly the discriminant's bytes,
returning the cursor the varint left. -/
theorem enum_decode_discriminant_first :
    ∀ (α : Type) (pre post : List (Int × String × List (String × Decoder α)))
      (n : Int) (vname : String) (fields : List (String × Decoder α)) (r r1 : List Nat),
      decode_varint r = (Except.ok n, r1) →
      (∀ v ∈ pre, v.1 ≠ n) →
      decode_enum (pre ++ (n, vname, []) :: post) r = (Except.ok (vname, []), r1) ∧
      decode_enum (pre ++ (n, vname, fields) :: post) r =
        match decode_variant_fields vname fields r1 with
        | (Except.ok vs, r2) => (Except.ok (vname, vs), r2)
        | (Except.error e, r2) => (Except.error e, r2) := by
  intro α pre post n vname fields r r1 h hpre
  constructor
  · simp [decode_enum, h, withContext, findVariant_first pre post n vname [] hpre,
      decode_variant_fields, decodeFields]
  · simp only [decode_enum, h, withContext, findVariant_first pre post n vname fields hpre]
    rcases hv : decode_variant_fields vname fields r1 with ⟨res, r2⟩
    cases res <;> simp [hv]

/-- Witness for C10: `Ping` decoded from `[0, 42]` consumes only the
discriminant byte, leaving `[42]` untouched. -/
theorem enum_decode_discriminant_first_witness :
    decode_enum pingPong [0, 42] = (Except.ok ("Ping", []), [42]) :=
  (enum_decode_discriminant_first Nat [] [(1, "Pong", [])] 0 "Ping" [] [0, 42] [42]
    (by rfl) (by simp)).1
